import Mathlib

/-!
Verification of the dsRAG knowledge-base core.

This file gives a shallow embedding of `dsrag/knowledge_base.py` (the query
pipeline, segment materialization, and document ingestion entry points) and of
the collaborators it calls.  Code present in the repository is translated
directly; collaborators whose source is not in the repository (the semantic
sectioning safeguard, the chunker, `get_meta_document`, `get_best_segments`,
`RSE_PARAMS_PRESETS`, `get_segment_header`) are modelled from the
specification, with a `Modelled from the spec:` marker on each such
definition.

Conventions of the embedding:
* Python exceptions become the `Except DSError` monad; an `AssertionError`
  raised by a failed `assert` is `DSError.assertionError`, a `ValueError` is
  `DSError.validationError`, and an `IndexError` is `DSError.indexError`.
* The chunk store, vector store and file system are explicit state
  (`KBState`), with the store capabilities as function fields.
* Python float similarities and relevance values are modelled as rationals;
  the floating-point relevance synthesis (`get_relevance_values`, which uses
  `exp`) is abstracted: the relevance vector is an input of `query`.
* String messages avoid quote characters but otherwise follow the source.
-/

/-- Error kinds raised by the embedded code (spec section 7).  `validationError`
carries the message of the Python `ValueError`. -/
inductive DSError where
  | validationError (msg : String)
  | assertionError
  | indexError
  deriving DecidableEq, Repr

/-- A reranked search result, `{ doc_id, chunk_index, similarity }`
(spec section 3, "Ranked result"); similarity is modelled as a rational. -/
structure RankedResult where
  doc_id : String
  chunk_index : Nat
  similarity : ℚ
  deriving DecidableEq, Repr

/-- The chunk store capabilities consumed by `KnowledgeBase`
(spec section 6, ChunkStore contract).  `docIds` is the value of
`get_all_doc_ids`; the remaining fields are the per-chunk lookups. -/
structure ChunkDB where
  docIds : List String
  numChunks : String → Nat
  chunkText : String → Nat → Option String
  isVisual : String → Nat → Bool
  documentTitle : String → Nat → Option String
  documentSummary : String → Nat → Option String
  chunkPageStart : String → Nat → Option Nat
  chunkPageEnd : String → Nat → Option Nat

/-- The file system capability consumed at query time:
`get_files(kb_id, doc_id, page_start, page_end) -> path[]`.  The `kb_id`
argument is a per-instance constant and is omitted. -/
structure FileSystem where
  getFiles : String → Option Nat → Option Nat → List String

/-- The mutable state of one `KnowledgeBase` instance: its chunk store, file
system, and (abstractly) which documents hold vectors in the vector store. -/
structure KBState where
  chunkDB : ChunkDB
  fileSystem : FileSystem
  vectorDocIds : List String

/-- Content of a materialized segment: a text string or a list of page-image
paths (`knowledge_base.py` returns a `str` or a `list` from
`_get_segment_content_from_database`). -/
inductive SegmentContent where
  | text (s : String)
  | images (paths : List String)
  deriving DecidableEq, Repr

/-- Modelled from the spec: `get_segment_header` (`dsrag/auto_context.py` is
not under `src/`).  Spec 4.J prefixes a text segment with
`document_title`, a blank line, and `document_summary`; the trailing blank
line is appended by the caller in `knowledge_base.py` line 800. -/
def getSegmentHeader (documentTitle documentSummary : String) : String :=
  documentTitle ++ "\n\n" ++ documentSummary

/-- `KnowledgeBase._get_segment_header` (lines 718-727): look up title and
summary for the chunk, defaulting to the empty string. -/
def segmentHeaderFor (kb : KBState) (docId : String) (chunkIndex : Nat) : String :=
  getSegmentHeader ((kb.chunkDB.documentTitle docId chunkIndex).getD "")
    ((kb.chunkDB.documentSummary docId chunkIndex).getD "")

/-- The chunk indices of a segment: Python `range(chunk_start, chunk_end)`. -/
def chunkRange (chunkStart chunkEnd : Nat) : List Nat :=
  List.range' chunkStart (chunkEnd - chunkStart)

/-- The `return_mode == "text"` branch of
`_get_segment_content_from_database` (lines 799-804): the segment header, a
blank line, the concatenated chunk texts (each missing text replaced by `""`),
then `str.strip()`. -/
def textModeContent (kb : KBState) (docId : String) (chunkStart chunkEnd : Nat) : String :=
  (((chunkRange chunkStart chunkEnd).map
      (fun i => (kb.chunkDB.chunkText docId i).getD "")).foldl
    (fun acc t => acc ++ t) (segmentHeaderFor kb docId chunkStart ++ "\n\n")).trim

/-- The `"dynamic"` visual scan of `_get_segment_content_from_database`
(lines 784-791): whether any chunk in `[chunk_start, chunk_end)` has
`is_visual` set. -/
def segmentIsVisual (kb : KBState) (docId : String) (chunkStart chunkEnd : Nat) : Bool :=
  (chunkRange chunkStart chunkEnd).any (fun i => kb.chunkDB.isVisual docId i)

/-- `KnowledgeBase._get_segment_page_numbers` (lines 768-775): the page the
segment starts on (from its first chunk) and the page it ends on (from chunk
`chunk_end - 1`). -/
def segmentPageNumbers (kb : KBState) (docId : String) (chunkStart chunkEnd : Nat) :
    Option Nat × Option Nat :=
  (kb.chunkDB.chunkPageStart docId chunkStart, kb.chunkDB.chunkPageEnd docId (chunkEnd - 1))

/-- `KnowledgeBase._get_segment_content_from_database` (lines 777-812).
The leading `assert return_mode in ["text", "page_images", "dynamic"]` is the
`else` branch returning `DSError.assertionError`.  In `"dynamic"` mode the
effective mode becomes `"page_images"` when any chunk is visual and `"text"`
otherwise.  The source implements the empty-page-image fallback by a recursive
call with `return_mode="text"`; that call is exactly the `"text"` branch, so it
is written here as `textModeContent`. -/
def getSegmentContentFromDatabase (kb : KBState) (docId : String)
    (chunkStart chunkEnd : Nat) (returnMode : String) : Except DSError SegmentContent :=
  if returnMode = "text" ∨ returnMode = "page_images" ∨ returnMode = "dynamic" then
    let mode := if returnMode = "dynamic" then
        (if segmentIsVisual kb docId chunkStart chunkEnd then "page_images" else "text")
      else returnMode
    if mode = "text" then
      Except.ok (SegmentContent.text (textModeContent kb docId chunkStart chunkEnd))
    else
      let pn := segmentPageNumbers kb docId chunkStart chunkEnd
      let paths := kb.fileSystem.getFiles docId pn.1 pn.2
      if paths = [] then
        Except.ok (SegmentContent.text (textModeContent kb docId chunkStart chunkEnd))
      else
        Except.ok (SegmentContent.images paths)
  else
    Except.error DSError.assertionError

/-! ## Document ingestion (`add_document`, `add_documents`) -/

/-- Modelled from the spec: the ingestion pipeline that runs after the
validation checks of `add_document` — parsing/chunking (4.D), AutoContext
(4.E), embedding and storage (4.F).  Its collaborators are not under `src/`;
only the facts the claims depend on are recorded: the document is added to the
chunk store (appearing in `get_all_doc_ids`) and to the vector store, and its
text is stored.  Chunk decomposition details are abstracted to one chunk. -/
def ingestDocument (st : KBState) (docId text filePath : String) : KBState :=
  { st with
    chunkDB := { st.chunkDB with
      docIds := st.chunkDB.docIds ++ [docId]
      numChunks := fun d => if d = docId then 1 else st.chunkDB.numChunks d
      chunkText := fun d i =>
        if d = docId ∧ i = 0 then some (text ++ filePath) else st.chunkDB.chunkText d i }
    vectorDocIds := st.vectorDocIds ++ [docId] }

/-- The Python membership test `"/" in doc_id` (line 438): for a single
character this is containment of the character in the string. -/
def containsSlash (s : String) : Bool :=
  s.data.contains '/'

/-- `KnowledgeBase.add_document` (lines 259-569), reduced to its validation
and state effects.  The checks appear in source order (lines 425-439):
1. neither `text` nor `file_path` supplied → `ValueError`;
2. `doc_id` already in the chunk store → skip with a warning (plain return);
3. `doc_id` contains a slash → `ValueError`;
otherwise the document is ingested.  The returned state is the store state
after the call; errors are raised before any store write, so the state is
unchanged on every non-ingesting path.  Errors are fatal (re-raised at line
569), never retried. -/
def addDocument (st : KBState) (docId text filePath : String) :
    KBState × Except DSError Unit :=
  if text = "" ∧ filePath = "" then
    (st, Except.error (DSError.validationError "Either text or file_path must be provided"))
  else if docId ∈ st.chunkDB.docIds then
    (st, Except.ok ())
  else if containsSlash docId then
    (st, Except.error (DSError.validationError "doc_id cannot contain slash characters"))
  else
    (ingestDocument st docId text filePath, Except.ok ())

/-- One document of an `add_documents` batch (lines 571-604): its id, text and
file path (optional configuration keys are not consumed by the claims). -/
structure DocUpload where
  doc_id : String
  text : String
  file_path : String
  deriving DecidableEq, Repr

/-- The `process_document` closure of `add_documents` (lines 607-659): run
`add_document`, catch every exception, and report the `doc_id` exactly when no
exception escaped. -/
def processDocument (st : KBState) (d : DocUpload) : KBState × Option String :=
  match addDocument st d.doc_id d.text d.file_path with
  | (st2, Except.ok _) => (st2, some d.doc_id)
  | (st2, Except.error _) => (st2, none)

/-- The result-collection test of `add_documents` (lines 679-682):
`doc_id = future.result(); if doc_id: successful_uploads.append(doc_id)` —
Python truthiness, so `None` (a failed document) and the falsy empty string
are both dropped from the returned list. -/
def appendIfTruthy (r : Option String) (uploads : List String) : List String :=
  match r with
  | none => uploads
  | some id => if id = "" then uploads else id :: uploads

/-- `KnowledgeBase.add_documents` (lines 571-684): process every document of
the batch, collecting the ids reported by `process_document` through the
truthiness filter at line 681.  The thread-pool dispatch is modelled by its
sequential linearization (the `max_workers = 1` default). -/
def addDocuments : KBState → List DocUpload → KBState × List String
  | st, [] => (st, [])
  | st, d :: rest =>
    let r := processDocument st d
    let out := addDocuments r.1 rest
    (out.1, appendIfTruthy r.2 out.2)

/-- The upload list predicted from the validation rules alone, used to state
the corrected batch-ingest claim: a document is reported exactly when its text
or file path is supplied, its id is either already present (skipped) or
slash-free (ingested, which updates the store seen by later documents), and —
because of the truthiness filter at line 681 — its id is non-empty. -/
def expectedUploads : KBState → List DocUpload → List String
  | _, [] => []
  | st, d :: rest =>
    if ¬(d.text = "" ∧ d.file_path = "") ∧ d.doc_id ∈ st.chunkDB.docIds then
      (if d.doc_id = "" then expectedUploads st rest
       else d.doc_id :: expectedUploads st rest)
    else if ¬(d.text = "" ∧ d.file_path = "") ∧ containsSlash d.doc_id = false then
      (if d.doc_id = "" then
        expectedUploads (ingestDocument st d.doc_id d.text d.file_path) rest
       else
        d.doc_id :: expectedUploads (ingestDocument st d.doc_id d.text d.file_path) rest)
    else
      expectedUploads st rest

/-! ## RSE parameters -/

/-- The full set of RSE parameters after defaulting (query docstring,
lines 826-854). -/
structure RseParams where
  max_length : Nat
  overall_max_length : Nat
  minimum_value : ℚ
  irrelevant_chunk_penalty : ℚ
  overall_max_length_extension : Nat
  decay_rate : ℚ
  top_k_for_document_selection : Nat
  chunk_length_adjustment : Bool
  deriving DecidableEq, Repr

/-- A user-supplied RSE parameter dict: every key optional
(`rse_params.get(key, default)` at lines 928-950). -/
structure RseParamsDict where
  max_length : Option Nat := none
  overall_max_length : Option Nat := none
  minimum_value : Option ℚ := none
  irrelevant_chunk_penalty : Option ℚ := none
  overall_max_length_extension : Option Nat := none
  decay_rate : Option ℚ := none
  top_k_for_document_selection : Option Nat := none
  chunk_length_adjustment : Option Bool := none
  deriving DecidableEq, Repr

/-- Modelled from the spec: the `"balanced"` preset of `RSE_PARAMS_PRESETS`
(`dsrag/rse.py` is not under `src/`).  The spec fixes the key set and that
presets populate every parameter; the numeric values are not in the sources
and are representative. -/
def balancedPresetDict : RseParamsDict :=
  { max_length := some 15, overall_max_length := some 30, minimum_value := some ((1 : ℚ)/2),
    irrelevant_chunk_penalty := some ((18 : ℚ)/100), overall_max_length_extension := some 5,
    decay_rate := some 30, top_k_for_document_selection := some 10,
    chunk_length_adjustment := some true }

/-- Modelled from the spec: the `"precise"` preset (values representative). -/
def precisePresetDict : RseParamsDict :=
  { max_length := some 10, overall_max_length := some 20, minimum_value := some ((7 : ℚ)/10),
    irrelevant_chunk_penalty := some ((2 : ℚ)/10), overall_max_length_extension := some 3,
    decay_rate := some 30, top_k_for_document_selection := some 7,
    chunk_length_adjustment := some true }

/-- Modelled from the spec: the `"comprehensive"` preset (values
representative). -/
def comprehensivePresetDict : RseParamsDict :=
  { max_length := some 20, overall_max_length := some 40, minimum_value := some ((3 : ℚ)/10),
    irrelevant_chunk_penalty := some ((15 : ℚ)/100), overall_max_length_extension := some 8,
    decay_rate := some 20, top_k_for_document_selection := some 12,
    chunk_length_adjustment := some true }

/-- Modelled from the spec: `RSE_PARAMS_PRESETS` holds exactly the keys
`"balanced"`, `"precise"`, `"comprehensive"` (spec section 6, query input
presets). -/
def RSE_PARAMS_PRESETS (name : String) : Option RseParamsDict :=
  if name = "balanced" then some balancedPresetDict
  else if name = "precise" then some precisePresetDict
  else if name = "comprehensive" then some comprehensivePresetDict
  else none

/-- The `rse_params` argument of `query`: a dict or a preset name string
(`Union[Dict, str]`, line 817). -/
inductive RseParamsArg where
  | dict (d : RseParamsDict)
  | str (s : String)
  deriving DecidableEq, Repr

/-- The preset-name check of `query` (lines 921-925): a string must be a key
of `RSE_PARAMS_PRESETS`, otherwise
`ValueError(f"Invalid rse_params preset name: ...")`; a dict passes through. -/
def resolveRseParams : RseParamsArg → Except DSError RseParamsDict
  | RseParamsArg.dict d => Except.ok d
  | RseParamsArg.str s =>
    match RSE_PARAMS_PRESETS s with
    | some d => Except.ok d
    | none => Except.error (DSError.validationError ("Invalid rse_params preset name: " ++ s))

/-- The defaulting step of `query` (lines 927-950): every parameter missing
from the dict falls back to the `"balanced"` preset. -/
def fillDefaults (d : RseParamsDict) : RseParams :=
  { max_length := d.max_length.getD 15
    overall_max_length := d.overall_max_length.getD 30
    minimum_value := d.minimum_value.getD ((1 : ℚ)/2)
    irrelevant_chunk_penalty := d.irrelevant_chunk_penalty.getD ((18 : ℚ)/100)
    overall_max_length_extension := d.overall_max_length_extension.getD 5
    decay_rate := d.decay_rate.getD 30
    top_k_for_document_selection := d.top_k_for_document_selection.getD 10
    chunk_length_adjustment := d.chunk_length_adjustment.getD true }

/-- The budget extension of `query` (lines 952-954):
`overall_max_length += (len(search_queries) - 1) * overall_max_length_extension`,
computed over the integers to keep the Python semantics for an empty query
list. -/
def overallBudget (p : RseParams) (numQueries : Nat) : Int :=
  (p.overall_max_length : Int) + ((numQueries : Int) - 1) * (p.overall_max_length_extension : Int)

/-! ## Meta-document construction (modelled from spec 4.H) -/

/-- Modelled from the spec: the document ids of the hits among the top
`top_k_for_document_selection` candidates of each reranked list, walked in
list order (spec 4.H). -/
def topKHitDocIds (topK : Nat) : List (List RankedResult) → List String
  | [] => []
  | l :: ls => (l.take topK).map (fun r => r.doc_id) ++ topKHitDocIds topK ls

/-- Order-preserving deduplication: keep the first occurrence of each id. -/
def dedupFirst : List String → List String → List String
  | [], _ => []
  | x :: xs, seen => if x ∈ seen then dedupFirst xs seen else x :: dedupFirst xs (x :: seen)

/-- Cumulative chunk counts through each document:
`running_total += chunks_in_doc(d); document_splits.append(running_total)`. -/
def cumulativeSplits (db : ChunkDB) (acc : Nat) : List String → List Nat
  | [] => []
  | d :: ds => (acc + db.numChunks d) :: cumulativeSplits db (acc + db.numChunks d) ds

/-- Start point of each document in the meta-document address space:
`document_start_points[doc_id] = running_total` before its chunks are
appended. -/
def startPointsList (db : ChunkDB) (acc : Nat) : List String → List (String × Nat)
  | [] => []
  | d :: ds => (d, acc) :: startPointsList db (acc + db.numChunks d) ds

/-- Modelled from the spec: `get_meta_document` (`dsrag/rse.py` is not under
`src/`; spec 4.H).  Returns
`(document_splits, document_start_points, unique_document_ids)`. -/
def getMetaDocument (db : ChunkDB) (allRankedResults : List (List RankedResult)) (topK : Nat) :
    List Nat × List (String × Nat) × List String :=
  let uniqueDocumentIds := dedupFirst (topKHitDocIds topK allRankedResults) []
  (cumulativeSplits db 0 uniqueDocumentIds,
   startPointsList db 0 uniqueDocumentIds,
   uniqueDocumentIds)

/-! ## Segment selection (modelled from spec 4.I) -/

/-- Score of the meta-interval `[a, b)`: the sum of the relevance values. -/
def segScore (V : List ℚ) (a b : Nat) : ℚ :=
  ((chunkRange a b).map (fun i => V.getD i 0)).foldl (fun x y => x + y) 0

/-- Whether `[a, b)` straddles a document split (spec: no interval crosses a
document split). -/
def crossesSplit (splits : List Nat) (a b : Nat) : Bool :=
  splits.any (fun s => decide (a < s ∧ s < b))

/-- Candidate intervals starting at `a` with length `1 .. maxLen`, inside the
meta-document and inside a single document. -/
def candidatesFrom (V : List ℚ) (splits : List Nat) (a : Nat) : Nat → List (Nat × Nat)
  | 0 => []
  | l + 1 =>
    candidatesFrom V splits a l ++
      (if a + l + 1 ≤ V.length ∧ crossesSplit splits a (a + l + 1) = false then
        [(a, a + l + 1)] else [])

/-- Candidate intervals with start `0 .. n-1`, in order of start address. -/
def candidateListAux (V : List ℚ) (splits : List Nat) (maxLen : Nat) : Nat → List (Nat × Nat)
  | 0 => []
  | a + 1 => candidateListAux V splits maxLen a ++ candidatesFrom V splits a maxLen

/-- All candidate segments of the meta-document, enumerated deterministically
by start address then length. -/
def candidateList (V : List ℚ) (splits : List Nat) (maxLen : Nat) : List (Nat × Nat) :=
  candidateListAux V splits maxLen V.length

/-- Earliest maximum-score candidate (spec: ties broken by earlier
meta-address). -/
def pickBest (V : List ℚ) : List (Nat × Nat) → Option (Nat × Nat)
  | [] => none
  | c :: cs =>
    match pickBest V cs with
    | none => some c
    | some b => if segScore V c.1 c.2 < segScore V b.1 b.2 then some b else some c

/-- Whether two half-open intervals intersect. -/
def overlapsSeg (c d : Nat × Nat) : Bool :=
  decide (c.1 < d.2 ∧ d.1 < c.2)

/-- The candidates whose length fits the remaining overall budget and whose
score reaches `minimum_value`. -/
def eligibleCands (V : List ℚ) (minVal : ℚ) (budget : Int)
    (cands : List (Nat × Nat)) : List (Nat × Nat) :=
  cands.filter (fun c => decide (((c.2 - c.1 : Nat) : Int) ≤ budget ∧
    minVal ≤ segScore V c.1 c.2))

/-- The candidates not overlapping the picked segment (the pick overlaps
itself, so it is dropped too). -/
def remainingCands (c : Nat × Nat) (cands : List (Nat × Nat)) : List (Nat × Nat) :=
  cands.filter (fun d => !(overlapsSeg c d))

/-- Modelled from the spec: greedy segment selection (spec 4.I): repeatedly
pick the best remaining candidate whose length fits the remaining overall
budget and whose score reaches `minimum_value`, then drop every candidate
overlapping it.  `fuel` bounds the recursion; each step removes the picked
candidate, so `candidates.length + 1` fuel is exact.  Picks are appended in
selection order, which is descending score order. -/
def greedyPick (V : List ℚ) (minVal : ℚ) :
    Nat → Int → List (Nat × Nat) → List (Nat × Nat) → List (Nat × Nat)
  | 0, _, chosen, _ => chosen.reverse
  | fuel + 1, budget, chosen, cands =>
    match pickBest V (eligibleCands V minVal budget cands) with
    | none => chosen.reverse
    | some c =>
      greedyPick V minVal fuel (budget - ((c.2 - c.1 : Nat) : Int)) (c :: chosen)
        (remainingCands c cands)

/-- Modelled from the spec: `get_best_segments` (`dsrag/rse.py` is not under
`src/`; spec 4.I).  Returns the chosen segments and their scores, in
descending score order. -/
def getBestSegments (V : List ℚ) (documentSplits : List Nat) (maxLength : Nat)
    (overallMaxLength : Int) (minimumValue : ℚ) : List (Nat × Nat) × List ℚ :=
  let cands := candidateList V documentSplits maxLength
  let segs := greedyPick V minimumValue (cands.length + 1) overallMaxLength [] cands
  (segs, segs.map (fun c => segScore V c.1 c.2))

/-! ## Segment resolution and materialization (`query`, lines 1022-1068) -/

/-- The inner loop of `query` at lines 1029-1039:
`for i, split in enumerate(document_splits): if start < split: ...; break` —
the index of the first (hence smallest) split strictly greater than `s`. -/
def findSplitIndex (s : Nat) : List Nat → Option Nat
  | [] => none
  | x :: xs => if s < x then some 0 else (findSplitIndex s xs).map (fun i => i + 1)

/-- Resolution of one meta-interval `[s, e)` (lines 1029-1039): find the first
split above `s`; the document start is `document_splits[i-1]` for `i > 0` and
`0` otherwise; report `(doc_id, s - doc_start, e - doc_start)` with the end
index non-inclusive.  `none` when no split exceeds `s` (the loop appends
nothing). -/
def resolveMetaInterval (documentSplits : List Nat) (uniqueDocumentIds : List String)
    (s e : Nat) : Option (String × Nat × Nat) :=
  match findSplitIndex s documentSplits with
  | none => none
  | some i =>
    let docStart := if i = 0 then 0 else documentSplits.getD (i - 1) 0
    some (uniqueDocumentIds.getD i "", s - docStart, e - docStart)

/-- A resolved segment before content retrieval:
`{ doc_id, chunk_start, chunk_end, score }`. -/
structure SegmentRef where
  doc_id : String
  chunk_start : Nat
  chunk_end : Nat
  score : ℚ
  deriving DecidableEq, Repr

/-- The segment-resolution loop of `query` (lines 1026-1042).  When the inner
loop resolves the interval, a new entry is appended and (line 1042) its score
is set; when it does not, line 1042 overwrites the score of the previous entry
(`relevant_segment_info[-1]`), raising `IndexError` when there is none. -/
def attachSegments (documentSplits : List Nat) (uniqueDocumentIds : List String) :
    List ((Nat × Nat) × ℚ) → List SegmentRef → Except DSError (List SegmentRef)
  | [], acc => Except.ok acc
  | (se, score) :: rest, acc =>
    match resolveMetaInterval documentSplits uniqueDocumentIds se.1 se.2 with
    | some (docId, cs, ce) =>
      attachSegments documentSplits uniqueDocumentIds rest
        (acc ++ [{ doc_id := docId, chunk_start := cs, chunk_end := ce, score := score }])
    | none =>
      match acc.getLast? with
      | none => Except.error DSError.indexError
      | some last =>
        attachSegments documentSplits uniqueDocumentIds rest
          (acc.dropLast ++ [{ last with score := score }])

/-- One element of the list returned by `query` (lines 864-890): segment
coordinates, content, page range, score, and the backwards-compatible `text`
key (line 1064-1068: the content when it is a string, `""` otherwise). -/
structure SegmentInfo where
  doc_id : String
  chunk_start : Nat
  chunk_end : Nat
  content : SegmentContent
  segment_page_start : Option Nat
  segment_page_end : Option Nat
  score : ℚ
  text : String
  deriving DecidableEq, Repr

/-- The content-retrieval loop of `query` (lines 1044-1068): fetch each
segment content (propagating exceptions), look up the page range, and fill the
result record. -/
def materializeSegments (kb : KBState) (returnMode : String) :
    List SegmentRef → Except DSError (List SegmentInfo)
  | [] => Except.ok []
  | seg :: rest =>
    match getSegmentContentFromDatabase kb seg.doc_id seg.chunk_start seg.chunk_end returnMode with
    | Except.error e => Except.error e
    | Except.ok content =>
      match materializeSegments kb returnMode rest with
      | Except.error e => Except.error e
      | Except.ok out =>
        let pn := segmentPageNumbers kb seg.doc_id seg.chunk_start seg.chunk_end
        let info : SegmentInfo :=
          { doc_id := seg.doc_id, chunk_start := seg.chunk_start,
            chunk_end := seg.chunk_end, content := content,
            segment_page_start := pn.1, segment_page_end := pn.2, score := seg.score,
            text := match content with
              | SegmentContent.text s => s
              | SegmentContent.images _ => "" }
        Except.ok (info :: out)

/-- The post-retrieval body of `query` (lines 979-1088), with the parameters
already defaulted: build the meta-document; return `[]` when it is empty
(lines 986-989); otherwise select segments, resolve them against
`document_splits`, and materialize their content.  The relevance vector `V`
(floating-point in the source, produced by `get_relevance_values`) is an
input. -/
def queryWithParams (kb : KBState) (allRankedResults : List (List RankedResult)) (V : List ℚ)
    (p : RseParams) (returnMode : String) : Except DSError (List SegmentInfo) :=
  let meta := getMetaDocument kb.chunkDB allRankedResults p.top_k_for_document_selection
  if meta.1 = [] then Except.ok []
  else
    let best := getBestSegments V meta.1 p.max_length (overallBudget p allRankedResults.length)
      p.minimum_value
    match attachSegments meta.1 meta.2.2 (best.1.zip best.2) [] with
    | Except.error e => Except.error e
    | Except.ok segs => materializeSegments kb returnMode segs

/-- `KnowledgeBase.query` (lines 814-1103) from the point where the reranked
result lists are available (`_get_all_ranked_results` is the
retriever collaborator): validate/resolve `rse_params` (lines 921-925),
default missing parameters (lines 927-950), then run the RSE pipeline.
Exceptions propagate to the caller (re-raised at line 1103). -/
def query (kb : KBState) (allRankedResults : List (List RankedResult)) (V : List ℚ)
    (rseArg : RseParamsArg) (returnMode : String) : Except DSError (List SegmentInfo) :=
  match resolveRseParams rseArg with
  | Except.error e => Except.error e
  | Except.ok d => queryWithParams kb allRankedResults V (fillDefaults d) returnMode

/-- The segments chosen by `query` before resolution, as a function of its
inputs (the value of `best_segments` at line 1004). -/
def querySelectedSegments (kb : KBState) (allRankedResults : List (List RankedResult))
    (V : List ℚ) (p : RseParams) : List (Nat × Nat) :=
  (getBestSegments V (getMetaDocument kb.chunkDB allRankedResults p.top_k_for_document_selection).1
    p.max_length (overallBudget p allRankedResults.length) p.minimum_value).1

/-! ## Semantic sectioning safeguard and chunking (modelled from spec 4.C/4.D) -/

/-- A section of the final decomposition, a dict
`{ title, content, start, end }` in the source tests; `content` is derived
from the line range, so only `title`, `start` and the (inclusive) end line are
carried.  The Python key `end` is a Lean keyword and is named `endLine`. -/
structure DocSection where
  title : String
  start : Nat
  endLine : Nat
  deriving DecidableEq, Repr

/-- Modelled from the spec: the total character count of the document used by
the safeguard (spec 4.C), as the sum of the line lengths. -/
def totalChars (documentLines : List String) : Nat :=
  (documentLines.map String.length).sum

/-- Modelled from the spec: the sectioning safeguard (spec 4.C;
`dsparse/sectioning_and_chunking/semantic_sectioning.py` is not under `src/`,
only its integration test).  If `total_chars / len(sections)` is below
`min_avg_chars_per_section`, collapse all sections into a single
`"Consolidated Section"` spanning line `0` through the last line.  The real
division comparison `total/n < m` is stated over the naturals as
`total < m * n`, which is equivalent for `n > 0`; `n = 0` (a division error in
Python, unreachable because the merge step always yields a section) leaves the
list unchanged. -/
def applySafeguard (documentLines : List String) (sections : List DocSection)
    (minAvgCharsPerSection : Nat) : List DocSection :=
  if sections.length ≠ 0 ∧ totalChars documentLines < minAvgCharsPerSection * sections.length then
    [{ title := "Consolidated Section", start := 0, endLine := documentLines.length - 1 }]
  else
    sections

/-- The text of a section: its line range joined by newlines. -/
def sectionContent (documentLines : List String) (sec : DocSection) : String :=
  String.intercalate "\n" ((documentLines.drop sec.start).take (sec.endLine + 1 - sec.start))

/-- Modelled from the spec: hard cut of a character list into pieces of at
most `chunkSize` characters.  The spec prefers paragraph/sentence/whitespace
boundaries before a hard cut (4.D); boundary placement is abstracted because
the claims depend only on the chunk count being positive and on the section
tagging. -/
def hardCut (chunkSize : Nat) (cs : List Char) : List (List Char) :=
  if h : cs = [] then []
  else if h2 : chunkSize = 0 then [cs]
  else cs.take chunkSize :: hardCut chunkSize (cs.drop chunkSize)
termination_by cs.length
decreasing_by
  have hne : cs.length ≠ 0 := fun hz => h (List.length_eq_zero.mp hz)
  simp only [List.length_drop]
  omega

/-- Modelled from the spec: chunking of one section (spec 4.D): a section
shorter than `min_length_for_chunking` becomes a single chunk, otherwise it is
split into chunks of at most `chunk_size` characters. -/
def chunkSection (chunkSize minLengthForChunking : Nat) (content : String) : List String :=
  if content.length < minLengthForChunking then [content]
  else (hardCut chunkSize content.data).map (fun cs => String.mk cs)

/-- A chunk with its originating section index (spec section 3, "Chunk";
only the fields the claims consult). -/
structure DocChunk where
  content : String
  section_index : Nat
  deriving DecidableEq, Repr

/-- Chunks of a section list starting at section index `idx`: each section's
chunks are tagged with that section's index. -/
def chunksWithIndex (documentLines : List String) (chunkSize minLen : Nat) :
    Nat → List DocSection → List DocChunk
  | _, [] => []
  | idx, sec :: rest =>
    (chunkSection chunkSize minLen (sectionContent documentLines sec)).map
      (fun c => { content := c, section_index := idx }) ++
      chunksWithIndex documentLines chunkSize minLen (idx + 1) rest

/-- Modelled from the spec: the chunker over the final section list
(spec 4.D), tagging every chunk with its dense section index. -/
def chunkSections (documentLines : List String) (chunkSize minLen : Nat)
    (sections : List DocSection) : List DocChunk :=
  chunksWithIndex documentLines chunkSize minLen 0 sections

/-! ## Concrete fixtures used by witnesses and counterexamples -/

/-- A knowledge base with empty stores. -/
def emptyKB : KBState :=
  { chunkDB :=
      { docIds := [], numChunks := fun _ => 0, chunkText := fun _ _ => none,
        isVisual := fun _ _ => false, documentTitle := fun _ _ => none,
        documentSummary := fun _ _ => none, chunkPageStart := fun _ _ => none,
        chunkPageEnd := fun _ _ => none },
    fileSystem := { getFiles := fun _ _ _ => [] },
    vectorDocIds := [] }

/-- A knowledge base holding one previously ingested document with id `d`. -/
def kbWithDocD : KBState :=
  ingestDocument emptyKB "d" "sample text" ""

/-- A retrieval-time knowledge base: one document of two chunks whose chunks
are visual, with no page images on disk. -/
def wChunkDB : ChunkDB :=
  { docIds := ["doc1"],
    numChunks := fun _ => 2,
    chunkText := fun _ i => if i = 0 then some "hello " else some "world",
    isVisual := fun _ _ => true,
    documentTitle := fun _ _ => some "Title",
    documentSummary := fun _ _ => some "Summary",
    chunkPageStart := fun _ _ => none,
    chunkPageEnd := fun _ _ => none }

/-- Retrieval-time fixture wrapping `wChunkDB`. -/
def wKB : KBState :=
  { chunkDB := wChunkDB, fileSystem := { getFiles := fun _ _ _ => [] },
    vectorDocIds := ["doc1"] }

/-- One reranked result list with a single hit on `doc1`. -/
def wArr : List (List RankedResult) :=
  [[{ doc_id := "doc1", chunk_index := 0, similarity := (9 : ℚ)/10 }]]

/-- A relevance vector making both chunks of `doc1` relevant. -/
def wV : List ℚ := [1, 1]

/-! ## Helper lemmas -/

/-- `addDocument` maintains the store invariant that no stored doc id
contains a slash: the only write path is guarded by the slash check at
line 438. -/
theorem addDocument_preserves_no_slash (st : KBState) (docId text filePath : String)
    (hinv : ∀ d ∈ st.chunkDB.docIds, containsSlash d = false) :
    ∀ d ∈ (addDocument st docId text filePath).1.chunkDB.docIds,
      containsSlash d = false := by
  by_cases h1 : text = "" ∧ filePath = ""
  · simpa [addDocument, h1] using hinv
  · by_cases h2 : docId ∈ st.chunkDB.docIds
    · simpa [addDocument, h1, h2] using hinv
    · by_cases h3 : containsSlash docId = true
      · simpa [addDocument, h1, h2, h3] using hinv
      · intro d hd
        simp only [addDocument, h1, h2, h3, if_neg, if_false, ite_false,
          ingestDocument] at hd
        rcases List.mem_append.mp hd with hmem | hmem
        · exact hinv d hmem
        · have : d = docId := by simpa using hmem
          subst this
          exact Bool.not_eq_true _ ▸ (by simpa using h3)

/-! ## C7: add_document validation errors -/

/-- C7: For every call to `add_document` on a store whose doc ids satisfy the
slash-free invariant that `add_document` itself maintains, if neither `text`
nor `file_path` is supplied (both empty), or the `doc_id` contains a slash,
the call fails with a `ValidationError` and the state — chunk store, vector
store and file system — is returned unchanged: nothing is ingested.  The
error is re-raised to the caller (line 569), never retried. -/
theorem add_document_validation_rejects (st : KBState) (docId text filePath : String)
    (hinv : ∀ d ∈ st.chunkDB.docIds, containsSlash d = false)
    (h : (text = "" ∧ filePath = "") ∨ containsSlash docId = true) :
    ∃ msg, addDocument st docId text filePath =
      (st, Except.error (DSError.validationError msg)) := by
  rcases h with hempty | hslash
  · exact ⟨"Either text or file_path must be provided", by simp [addDocument, hempty]⟩
  · by_cases hempty : text = "" ∧ filePath = ""
    · exact ⟨"Either text or file_path must be provided", by simp [addDocument, hempty]⟩
    · have hnotmem : docId ∉ st.chunkDB.docIds := by
        intro hm
        have hfalse := hinv docId hm
        rw [hfalse] at hslash
        exact Bool.false_ne_true hslash
      exact ⟨"doc_id cannot contain slash characters",
        by simp [addDocument, hempty, hnotmem, hslash]⟩

/-- Witness for C7 at a concrete input: the empty store satisfies the
invariant, `"a/b"` contains a slash, and the call errors leaving the state
unchanged. -/
theorem add_document_validation_rejects_witness :
    (∀ d ∈ emptyKB.chunkDB.docIds, containsSlash d = false) ∧
    ((("x" : String) = "" ∧ ("" : String) = "") ∨ containsSlash "a/b" = true) ∧
    ∃ msg, addDocument emptyKB "a/b" "x" "" =
      (emptyKB, Except.error (DSError.validationError msg)) :=
  ⟨by decide, by decide,
    add_document_validation_rejects emptyKB "a/b" "x" "" (by decide) (by decide)⟩

/-! ## C8: duplicate doc_id handling -/

/-- C8 counterexample: a call on an already-present `doc_id` is not always
skipped without raising — when neither `text` nor `file_path` is supplied the
empty-input check at line 426-427 runs before the duplicate check at line 430
and raises `ValueError`, so the claim fails at the concrete input
`add_document(doc_id="d", text="", file_path="")` on a store containing
`"d"`. -/
theorem add_document_duplicate_raises_counterexample :
    "d" ∈ kbWithDocD.chunkDB.docIds ∧
    (addDocument kbWithDocD "d" "" "").2 =
      Except.error (DSError.validationError "Either text or file_path must be provided") :=
  ⟨by decide, rfl⟩

/-- C8 (amended): for every call to `add_document` that supplies text or a
file path, an already-present `doc_id` is skipped with a warning, not an
error: the call returns normally and the chunk store, vector store and file
system are left unchanged (lines 429-435). -/
theorem add_document_duplicate_skipped (st : KBState) (docId text filePath : String)
    (hdup : docId ∈ st.chunkDB.docIds) (hsupplied : ¬(text = "" ∧ filePath = "")) :
    addDocument st docId text filePath = (st, Except.ok ()) := by
  simp [addDocument, hsupplied, hdup]

/-- Witness for the amended C8 at a concrete input. -/
theorem add_document_duplicate_skipped_witness :
    "d" ∈ kbWithDocD.chunkDB.docIds ∧ ¬(("more" : String) = "" ∧ ("" : String) = "") ∧
    addDocument kbWithDocD "d" "more" "" = (kbWithDocD, Except.ok ()) :=
  ⟨by decide, by decide,
    add_document_duplicate_skipped kbWithDocD "d" "more" "" (by decide) (by decide)⟩

/-! ## C9: batch ingest isolation and the reported upload list -/

/-- C9 counterexample: the returned list is not exactly the successfully
*ingested* doc ids — a batch whose only document is a duplicate of an
already-present `doc_id` ingests nothing (the final state equals the initial
state) yet reports that doc id, because `add_document` returns normally after
the skip and `process_document` (lines 645-649) then reports success. -/
theorem add_documents_reports_skipped_counterexample :
    addDocuments kbWithDocD [{ doc_id := "d", text := "new text", file_path := "" }] =
      (kbWithDocD, ["d"]) :=
  rfl

/-- A document with an empty-string doc id passes every validation check of
`add_document` (the empty-input check is about text/file_path, `""` is never
a duplicate of an absent id, and contains no slash), so it is ingested — yet
the truthiness filter at line 681 drops it from the returned list. -/
theorem add_documents_empty_doc_id_not_reported :
    addDocuments emptyKB [{ doc_id := "", text := "some text", file_path := "" }] =
      (ingestDocument emptyKB "" "some text" "", []) :=
  rfl

/-- C9 (amended): one document's exception does not abort the processing of
the other documents of the batch, and the returned list contains exactly the
non-empty doc ids of the documents whose processing completed without
raising — those ingested, plus any skipped as already-present duplicates —
and no others: the list predicted from the validation rules and the
truthiness filter alone. -/
theorem add_documents_reports_processed (st : KBState) (docs : List DocUpload) :
    (addDocuments st docs).2 = expectedUploads st docs := by
  induction docs generalizing st with
  | nil => rfl
  | cons d rest ih =>
    by_cases hempty : d.text = "" ∧ d.file_path = ""
    · simp [addDocuments, processDocument, addDocument, appendIfTruthy, hempty,
        expectedUploads, ih]
    · by_cases hdup : d.doc_id ∈ st.chunkDB.docIds
      · by_cases hid : d.doc_id = ""
        · rw [hid] at hdup
          simp [addDocuments, processDocument, addDocument, appendIfTruthy, hempty, hdup,
            hid, expectedUploads, ih]
        · simp [addDocuments, processDocument, addDocument, appendIfTruthy, hempty, hdup,
            hid, expectedUploads, ih]
      · by_cases hslash : containsSlash d.doc_id = true
        · simp [addDocuments, processDocument, addDocument, appendIfTruthy, hempty, hdup,
            hslash, expectedUploads, ih]
        · by_cases hid : d.doc_id = ""
          · rw [hid] at hdup hslash
            simp [addDocuments, processDocument, addDocument, appendIfTruthy, hempty, hdup,
              hslash, hid, expectedUploads, ih]
          · simp [addDocuments, processDocument, addDocument, appendIfTruthy, hempty, hdup,
              hslash, hid, expectedUploads, ih]

/-! ## C3: rse_params preset validation -/

/-- C3: `rse_params` is accepted when it is a dict or one of the exact
strings `"balanced"`, `"precise"`, `"comprehensive"`; for every other string,
`query` raises a `ValidationError` (lines 921-925) — a hard error surfaced to
the caller, never retried. -/
theorem rse_params_preset_validation (s : String)
    (h : s ≠ "balanced" ∧ s ≠ "precise" ∧ s ≠ "comprehensive") :
    (∀ kb arr V mode, query kb arr V (RseParamsArg.str s) mode =
      Except.error (DSError.validationError ("Invalid rse_params preset name: " ++ s))) ∧
    (∀ d, resolveRseParams (RseParamsArg.dict d) = Except.ok d) ∧
    (∀ p, p = "balanced" ∨ p = "precise" ∨ p = "comprehensive" →
      ∃ d, resolveRseParams (RseParamsArg.str p) = Except.ok d) := by
  obtain ⟨h1, h2, h3⟩ := h
  refine ⟨?_, fun d => rfl, ?_⟩
  · intro kb arr V mode
    simp [query, resolveRseParams, RSE_PARAMS_PRESETS, h1, h2, h3]
  · rintro p (rfl | rfl | rfl)
    · exact ⟨balancedPresetDict, rfl⟩
    · exact ⟨precisePresetDict, rfl⟩
    · exact ⟨comprehensivePresetDict, rfl⟩

/-- Witness for C3 at the concrete invalid preset name `"foo"`. -/
theorem rse_params_preset_validation_witness :
    (("foo" : String) ≠ "balanced" ∧ ("foo" : String) ≠ "precise" ∧
      ("foo" : String) ≠ "comprehensive") ∧
    ((∀ kb arr V mode, query kb arr V (RseParamsArg.str "foo") mode =
      Except.error (DSError.validationError ("Invalid rse_params preset name: " ++ "foo"))) ∧
    (∀ d, resolveRseParams (RseParamsArg.dict d) = Except.ok d) ∧
    (∀ p, p = "balanced" ∨ p = "precise" ∨ p = "comprehensive" →
      ∃ d, resolveRseParams (RseParamsArg.str p) = Except.ok d)) :=
  ⟨by decide, rse_params_preset_validation "foo" (by decide)⟩

/-! ## C4: meta-interval resolution against document_splits -/

/-- The loop at lines 1029-1039 returns the first index whose split exceeds
`s`; since the scan is in order, that index is the smallest such. -/
theorem findSplitIndex_eq_some (s : Nat) (l : List Nat) (i : Nat) (hi : i < l.length)
    (hlt : s < l[i])
    (hmin : ∀ j (hj : j < l.length), j < i → ¬ s < l[j]) :
    findSplitIndex s l = some i := by
  induction l generalizing i with
  | nil => simp at hi
  | cons x xs ih =>
    by_cases hx : s < x
    · have hzero : i = 0 := by
        by_contra h0
        exact hmin 0 (by simp) (Nat.pos_of_ne_zero h0) (by simpa using hx)
      subst hzero
      simp [findSplitIndex, hx]
    · have hi0 : i ≠ 0 := by
        intro h0
        subst h0
        exact hx (by simpa using hlt)
      obtain ⟨i', rfl⟩ := Nat.exists_eq_succ_of_ne_zero hi0
      have hi' : i' < xs.length := by simpa using hi
      have hlt' : s < xs[i'] := by simpa using hlt
      have hmin' : ∀ j (hj : j < xs.length), j < i' → ¬ s < xs[j] := by
        intro j hj hji
        have := hmin (j + 1) (by simpa using Nat.succ_lt_succ hj) (Nat.succ_lt_succ hji)
        simpa using this
      simp [findSplitIndex, hx, ih i' hi' hlt' hmin']

/-- C4: `query` resolves a chosen meta-interval `[s, e)` by searching
`document_splits` for the smallest index `i` with `s < document_splits[i]`
(the document whose cumulative chunk range contains `s`), takes that
document's start point (`document_splits[i-1]`, or `0` for the first
document), and reports `chunk_start = s - doc_start` and
`chunk_end = e - doc_start` with the end exclusive (lines 1026-1042,
`NOTE: end index is non-inclusive`). -/
theorem query_resolves_meta_interval (documentSplits : List Nat)
    (uniqueDocumentIds : List String) (s e i : Nat) (hi : i < documentSplits.length)
    (hlt : s < documentSplits[i])
    (hmin : ∀ j (hj : j < documentSplits.length), j < i → ¬ s < documentSplits[j]) :
    resolveMetaInterval documentSplits uniqueDocumentIds s e =
      some (uniqueDocumentIds.getD i "",
        s - (if i = 0 then 0 else documentSplits.getD (i - 1) 0),
        e - (if i = 0 then 0 else documentSplits.getD (i - 1) 0)) := by
  unfold resolveMetaInterval
  rw [findSplitIndex_eq_some s documentSplits i hi hlt hmin]

/-- Witness for C4: the meta-interval `[3, 5)` over splits `[2, 5]` resolves
into the second document, with chunk range `[1, 3)`. -/
theorem query_resolves_meta_interval_witness :
    (3 < ([2, 5] : List Nat).get ⟨1, by decide⟩) ∧
    (∀ j (hj : j < ([2, 5] : List Nat).length), j < 1 → ¬ 3 < ([2, 5] : List Nat).get ⟨j, hj⟩) ∧
    resolveMetaInterval [2, 5] ["docA", "docB"] 3 5 = some ("docB", 1, 3) := by
  refine ⟨by decide, by decide, ?_⟩
  have h := query_resolves_meta_interval [2, 5] ["docA", "docB"] 3 5 1 (by decide)
    (by decide) (by decide)
  rw [h]
  decide

/-! ## C1: the sectioning safeguard -/

/-- A hard cut of a non-empty character list yields at least one piece. -/
theorem hardCut_ne_nil (chunkSize : Nat) (cs : List Char) (h : cs ≠ []) :
    hardCut chunkSize cs ≠ [] := by
  rw [hardCut]
  simp only [dif_neg h]
  by_cases h2 : chunkSize = 0
  · simp [h2]
  · simp [h2]

/-- With a positive chunking gate, every section yields at least one chunk:
a short section becomes one chunk, and a long one is non-empty so its hard
cut is non-empty. -/
theorem chunkSection_ne_nil (chunkSize minLen : Nat) (content : String)
    (hmin : 0 < minLen) : chunkSection chunkSize minLen content ≠ [] := by
  unfold chunkSection
  by_cases hlt : content.length < minLen
  · simp [hlt]
  · have hne : content.data ≠ [] := by
      intro hd
      have hz : content.length = 0 := by simp [String.length, hd]
      omega
    simp only [hlt, if_false, ite_false, ne_eq, List.map_eq_nil_iff]
    exact hardCut_ne_nil chunkSize content.data hne

/-- C1: whenever the document's total character count is below
`min_avg_chars_per_section` times the section count (the natural-number form
of `total_chars / len(sections) < min_avg_chars_per_section`), the final
decomposition is exactly one section titled `"Consolidated Section"` spanning
line `0` through the last line, and chunking that decomposition still
produces chunks, every one of which carries `section_index = 0`. -/
theorem safeguard_consolidated_section (documentLines : List String)
    (sections : List DocSection) (minAvgCharsPerSection chunkSize minLengthForChunking : Nat)
    (hsec : sections ≠ []) (hminlen : 0 < minLengthForChunking)
    (hcond : totalChars documentLines < minAvgCharsPerSection * sections.length) :
    applySafeguard documentLines sections minAvgCharsPerSection =
      [{ title := "Consolidated Section", start := 0, endLine := documentLines.length - 1 }] ∧
    (∀ c ∈ chunkSections documentLines chunkSize minLengthForChunking
        (applySafeguard documentLines sections minAvgCharsPerSection),
      c.section_index = 0) ∧
    chunkSections documentLines chunkSize minLengthForChunking
        (applySafeguard documentLines sections minAvgCharsPerSection) ≠ [] := by
  have hlen : sections.length ≠ 0 := fun h0 => hsec (List.length_eq_zero.mp h0)
  have happ : applySafeguard documentLines sections minAvgCharsPerSection =
      [{ title := "Consolidated Section", start := 0,
         endLine := documentLines.length - 1 }] := by
    unfold applySafeguard
    rw [if_pos ⟨hlen, hcond⟩]
  refine ⟨happ, ?_, ?_⟩
  · rw [happ]
    intro c hc
    simp only [chunkSections, chunksWithIndex, List.append_nil] at hc
    obtain ⟨a, _, rfl⟩ := List.mem_map.mp hc
    rfl
  · rw [happ]
    simp only [chunkSections, chunksWithIndex, List.append_nil, ne_eq, List.map_eq_nil_iff]
    exact chunkSection_ne_nil chunkSize minLengthForChunking _ hminlen

/-- Witness for C1: a two-line document with two tiny sections collapses to
the consolidated section and still chunks, with all chunks in section 0. -/
theorem safeguard_consolidated_section_witness :
    (([{ title := "A", start := 0, endLine := 0 },
       { title := "B", start := 1, endLine := 1 }] : List DocSection) ≠ []) ∧
    (0 < 50) ∧
    (totalChars ["line one", "line two"] <
      500 * ([{ title := "A", start := 0, endLine := 0 },
              { title := "B", start := 1, endLine := 1 }] : List DocSection).length) ∧
    (applySafeguard ["line one", "line two"]
        [{ title := "A", start := 0, endLine := 0 },
         { title := "B", start := 1, endLine := 1 }] 500 =
      [{ title := "Consolidated Section", start := 0, endLine := 1 }] ∧
    (∀ c ∈ chunkSections ["line one", "line two"] 800 50
        (applySafeguard ["line one", "line two"]
          [{ title := "A", start := 0, endLine := 0 },
           { title := "B", start := 1, endLine := 1 }] 500),
      c.section_index = 0) ∧
    chunkSections ["line one", "line two"] 800 50
        (applySafeguard ["line one", "line two"]
          [{ title := "A", start := 0, endLine := 0 },
           { title := "B", start := 1, endLine := 1 }] 500) ≠ []) := by
  refine ⟨by decide, by decide, by decide, ?_⟩
  have h := safeguard_consolidated_section ["line one", "line two"]
    [{ title := "A", start := 0, endLine := 0 },
     { title := "B", start := 1, endLine := 1 }] 500 800 50
    (by decide) (by decide) (by decide)
  simpa using h

/-! ## C5 and C6: segment content modes -/

/-- Unfolding of the `"text"` mode of `_get_segment_content_from_database`. -/
theorem getSegmentContent_text (kb : KBState) (docId : String) (cs ce : Nat) :
    getSegmentContentFromDatabase kb docId cs ce "text" =
      Except.ok (SegmentContent.text (textModeContent kb docId cs ce)) :=
  rfl

/-- Unfolding of the `"page_images"` mode of
`_get_segment_content_from_database`: return the page-image paths, or the
text-mode string when there are none. -/
theorem getSegmentContent_pageImages (kb : KBState) (docId : String) (cs ce : Nat) :
    getSegmentContentFromDatabase kb docId cs ce "page_images" =
      (if kb.fileSystem.getFiles docId (segmentPageNumbers kb docId cs ce).1
          (segmentPageNumbers kb docId cs ce).2 = [] then
        Except.ok (SegmentContent.text (textModeContent kb docId cs ce))
      else
        Except.ok (SegmentContent.images
          (kb.fileSystem.getFiles docId (segmentPageNumbers kb docId cs ce).1
            (segmentPageNumbers kb docId cs ce).2))) :=
  rfl

/-- The `"dynamic"` mode reduces to one of the two other modes according to
the visual scan. -/
theorem getSegmentContent_dynamic (kb : KBState) (docId : String) (cs ce : Nat) :
    getSegmentContentFromDatabase kb docId cs ce "dynamic" =
      (if segmentIsVisual kb docId cs ce then
        getSegmentContentFromDatabase kb docId cs ce "page_images"
      else
        getSegmentContentFromDatabase kb docId cs ce "text") := by
  have h1 : getSegmentContentFromDatabase kb docId cs ce "dynamic" =
      (if ((if segmentIsVisual kb docId cs ce then "page_images" else "text") : String)
          = "text" then
        Except.ok (SegmentContent.text (textModeContent kb docId cs ce))
      else
        if kb.fileSystem.getFiles docId (segmentPageNumbers kb docId cs ce).1
            (segmentPageNumbers kb docId cs ce).2 = [] then
          Except.ok (SegmentContent.text (textModeContent kb docId cs ce))
        else
          Except.ok (SegmentContent.images
            (kb.fileSystem.getFiles docId (segmentPageNumbers kb docId cs ce).1
              (segmentPageNumbers kb docId cs ce).2))) := rfl
  rw [h1]
  cases hv : segmentIsVisual kb docId cs ce
  · rfl
  · rfl

/-- C6: a segment retrieved with `return_mode = "dynamic"` is materialized
exactly as in `"page_images"` mode when some chunk in
`[chunk_start, chunk_end)` is visual, and exactly as in `"text"` mode
otherwise (lines 782-797). -/
theorem dynamic_mode_selection (kb : KBState) (docId : String) (cs ce : Nat) :
    getSegmentContentFromDatabase kb docId cs ce "dynamic" =
      getSegmentContentFromDatabase kb docId cs ce
        (if segmentIsVisual kb docId cs ce then "page_images" else "text") := by
  rw [getSegmentContent_dynamic kb docId cs ce]
  cases hv : segmentIsVisual kb docId cs ce
  · rfl
  · rfl

/-- C5: when the file system returns no page-image files for the segment's
page range, a segment retrieved with `return_mode = "page_images"` — directly
or selected via `"dynamic"` — falls back to the text-mode result (a string),
and no error is raised (lines 805-812). -/
theorem missing_page_images_fallback (kb : KBState) (docId : String) (cs ce : Nat)
    (h : kb.fileSystem.getFiles docId (segmentPageNumbers kb docId cs ce).1
      (segmentPageNumbers kb docId cs ce).2 = []) :
    getSegmentContentFromDatabase kb docId cs ce "page_images" =
      Except.ok (SegmentContent.text (textModeContent kb docId cs ce)) ∧
    (segmentIsVisual kb docId cs ce = true →
      getSegmentContentFromDatabase kb docId cs ce "dynamic" =
        Except.ok (SegmentContent.text (textModeContent kb docId cs ce))) := by
  constructor
  · rw [getSegmentContent_pageImages, if_pos h]
  · intro hv
    rw [getSegmentContent_dynamic, hv]
    show getSegmentContentFromDatabase kb docId cs ce "page_images" =
      Except.ok (SegmentContent.text (textModeContent kb docId cs ce))
    rw [getSegmentContent_pageImages, if_pos h]

/-- Witness for C5: a knowledge base whose file system holds no page images
and whose chunks are visual: both the direct `"page_images"` request and the
`"dynamic"` request return the text string. -/
theorem missing_page_images_fallback_witness :
    (wKB.fileSystem.getFiles "doc1" (segmentPageNumbers wKB "doc1" 0 2).1
      (segmentPageNumbers wKB "doc1" 0 2).2 = []) ∧
    (getSegmentContentFromDatabase wKB "doc1" 0 2 "page_images" =
      Except.ok (SegmentContent.text (textModeContent wKB "doc1" 0 2)) ∧
    (segmentIsVisual wKB "doc1" 0 2 = true →
      getSegmentContentFromDatabase wKB "doc1" 0 2 "dynamic" =
        Except.ok (SegmentContent.text (textModeContent wKB "doc1" 0 2)))) :=
  ⟨rfl, missing_page_images_fallback wKB "doc1" 0 2 rfl⟩

/-! ## C2: empty meta-document handling -/

/-- When no reranked list has any hit, the walk over the top-k candidates
collects no document ids. -/
theorem topKHitDocIds_nil (topK : Nat) (arr : List (List RankedResult))
    (h : ∀ l ∈ arr, l = []) : topKHitDocIds topK arr = [] := by
  induction arr with
  | nil => rfl
  | cons l ls ih =>
    have hl : l = [] := h l (by simp)
    subst hl
    simp only [topKHitDocIds, List.take_nil, List.map_nil, List.nil_append]
    exact ih (fun l hl => h l (by simp [hl]))

/-- C2: if the meta-document built from the reranked result lists is empty,
`query` returns the empty segment list and raises no error (the check at
lines 986-989); in particular this holds when no reranked list has any hit,
because then `get_meta_document` selects no documents and `document_splits`
is empty. -/
theorem query_empty_meta_returns_empty (kb : KBState) (arr : List (List RankedResult))
    (V : List ℚ) (rseArg : RseParamsArg) (mode : String) (d : RseParamsDict)
    (hr : resolveRseParams rseArg = Except.ok d) :
    ((getMetaDocument kb.chunkDB arr (fillDefaults d).top_k_for_document_selection).1 = [] →
      query kb arr V rseArg mode = Except.ok []) ∧
    ((∀ l ∈ arr, l = []) → query kb arr V rseArg mode = Except.ok []) := by
  have hq : query kb arr V rseArg mode = queryWithParams kb arr V (fillDefaults d) mode := by
    simp [query, hr]
  constructor
  · intro hmeta
    rw [hq]
    unfold queryWithParams
    simp [hmeta]
  · intro hempty
    have hmeta : (getMetaDocument kb.chunkDB arr
        (fillDefaults d).top_k_for_document_selection).1 = [] := by
      unfold getMetaDocument
      simp [topKHitDocIds_nil _ arr hempty, dedupFirst, cumulativeSplits]
    rw [hq]
    unfold queryWithParams
    simp [hmeta]

/-- Witness for C2: one query whose reranked list is empty yields the empty
segment list. -/
theorem query_empty_meta_returns_empty_witness :
    resolveRseParams (RseParamsArg.str "balanced") = Except.ok balancedPresetDict ∧
    (((getMetaDocument emptyKB.chunkDB [[]]
        (fillDefaults balancedPresetDict).top_k_for_document_selection).1 = [] →
      query emptyKB [[]] [] (RseParamsArg.str "balanced") "text" = Except.ok []) ∧
    ((∀ l ∈ ([[]] : List (List RankedResult)), l = []) →
      query emptyKB [[]] [] (RseParamsArg.str "balanced") "text" = Except.ok [])) :=
  ⟨rfl, query_empty_meta_returns_empty emptyKB [[]] [] (RseParamsArg.str "balanced") "text"
    balancedPresetDict rfl⟩

/-! ## C10: return_mode validation by the segment-content assertion -/

/-- `pickBest` returns an element of its input list. -/
theorem pickBest_mem (V : List ℚ) (l : List (Nat × Nat)) (c : Nat × Nat)
    (h : pickBest V l = some c) : c ∈ l := by
  induction l with
  | nil => simp [pickBest] at h
  | cons x xs ih =>
    simp only [pickBest] at h
    cases hp : pickBest V xs with
    | none =>
      rw [hp] at h
      have : x = c := by simpa using h
      subst this
      exact List.mem_cons_self x xs
    | some b =>
      simp only [hp] at h
      by_cases hc : segScore V x.1 x.2 < segScore V b.1 b.2
      · rw [if_pos hc] at h
        have : b = c := by simpa using h
        subst this
        exact List.mem_cons_of_mem x (ih hp)
      · rw [if_neg hc] at h
        have : x = c := by simpa using h
        subst this
        exact List.mem_cons_self x xs

/-- Every segment chosen by the greedy loop was already chosen or is one of
the candidates. -/
theorem greedyPick_mem (V : List ℚ) (mv : ℚ) (fuel : Nat) :
    ∀ (budget : Int) (chosen cands : List (Nat × Nat)) (x : Nat × Nat),
      x ∈ greedyPick V mv fuel budget chosen cands → x ∈ chosen ∨ x ∈ cands := by
  induction fuel with
  | zero =>
    intro budget chosen cands x hx
    simp only [greedyPick, List.mem_reverse] at hx
    exact Or.inl hx
  | succ n ih =>
    intro budget chosen cands x hx
    simp only [greedyPick] at hx
    cases hp : pickBest V (eligibleCands V mv budget cands) with
    | none =>
      rw [hp] at hx
      simp only [List.mem_reverse] at hx
      exact Or.inl hx
    | some c =>
      rw [hp] at hx
      rcases ih _ _ _ x hx with hmem | hmem
      · rcases List.mem_cons.mp hmem with rfl | hmem2
        · exact Or.inr (List.mem_of_mem_filter (pickBest_mem V _ x hp))
        · exact Or.inl hmem2
      · exact Or.inr (List.mem_of_mem_filter hmem)

/-- Bounds of the candidates starting at `a`: they start at `a`, are
non-empty, and end inside the relevance vector. -/
theorem candidatesFrom_bounds (V : List ℚ) (splits : List Nat) (a len : Nat)
    (x : Nat × Nat) (hx : x ∈ candidatesFrom V splits a len) :
    x.1 = a ∧ x.1 < x.2 ∧ x.2 ≤ V.length := by
  induction len with
  | zero => simp [candidatesFrom] at hx
  | succ l ih =>
    simp only [candidatesFrom] at hx
    rcases List.mem_append.mp hx with h | h
    · exact ih h
    · by_cases hc : a + l + 1 ≤ V.length ∧ crossesSplit splits a (a + l + 1) = false
      · rw [if_pos hc] at h
        have hx2 : x = (a, a + l + 1) := by simpa using h
        subst hx2
        exact ⟨rfl, by omega, hc.1⟩
      · rw [if_neg hc] at h
        simp at h

/-- Bounds for all candidates: non-empty intervals inside the relevance
vector. -/
theorem candidateListAux_bounds (V : List ℚ) (splits : List Nat) (maxLen n : Nat)
    (x : Nat × Nat) (hx : x ∈ candidateListAux V splits maxLen n) :
    x.1 < x.2 ∧ x.2 ≤ V.length := by
  induction n with
  | zero => simp [candidateListAux] at hx
  | succ a ih =>
    simp only [candidateListAux] at hx
    rcases List.mem_append.mp hx with h | h
    · exact ih h
    · have hb := candidatesFrom_bounds V splits a maxLen x h
      exact ⟨hb.2.1, hb.2.2⟩

/-- Every segment returned by `get_best_segments` is a non-empty interval
inside the relevance vector. -/
theorem getBestSegments_bounds (V : List ℚ) (splits : List Nat) (maxLen : Nat)
    (oml : Int) (mv : ℚ) (x : Nat × Nat)
    (hx : x ∈ (getBestSegments V splits maxLen oml mv).1) :
    x.1 < x.2 ∧ x.2 ≤ V.length := by
  simp only [getBestSegments] at hx
  rcases greedyPick_mem V mv _ _ _ _ x hx with h | h
  · simp at h
  · exact candidateListAux_bounds V splits maxLen _ x h

/-- The scores returned by `get_best_segments` are the segment scores of its
segments. -/
theorem getBestSegments_snd (V : List ℚ) (splits : List Nat) (maxLen : Nat)
    (oml : Int) (mv : ℚ) :
    (getBestSegments V splits maxLen oml mv).2 =
      (getBestSegments V splits maxLen oml mv).1.map (fun c => segScore V c.1 c.2) :=
  rfl

/-- The default last element of a non-empty list is a member. -/
theorem getLastD_mem (l : List Nat) : ∀ d : Nat, l ≠ [] → l.getLastD d ∈ l := by
  induction l with
  | nil => intro d h; exact absurd rfl h
  | cons x xs ih =>
    intro d _
    rw [List.getLastD_cons]
    cases xs with
    | nil => simp [List.getLastD]
    | cons y ys => exact List.mem_cons_of_mem x (ih x (by simp))

/-- The split scan succeeds as soon as some split exceeds the start
address. -/
theorem findSplitIndex_isSome (s : Nat) (l : List Nat) (x : Nat) (hx : x ∈ l)
    (hs : s < x) : ∃ i, findSplitIndex s l = some i := by
  induction l with
  | nil => simp at hx
  | cons y ys ih =>
    by_cases hy : s < y
    · exact ⟨0, by simp [findSplitIndex, hy]⟩
    · rcases List.mem_cons.mp hx with rfl | hmem
      · exact absurd hs hy
      · obtain ⟨i, hi⟩ := ih hmem
        exact ⟨i + 1, by simp [findSplitIndex, hy, hi]⟩

/-- Meta-interval resolution succeeds as soon as some split exceeds the start
address. -/
theorem resolveMetaInterval_isSome (splits : List Nat) (docIds : List String)
    (s e : Nat) (h : ∃ x ∈ splits, s < x) :
    ∃ r, resolveMetaInterval splits docIds s e = some r := by
  obtain ⟨x, hx, hs⟩ := h
  obtain ⟨i, hi⟩ := findSplitIndex_isSome s splits x hx hs
  refine ⟨(docIds.getD i "", s - (if i = 0 then 0 else splits.getD (i - 1) 0),
    e - (if i = 0 then 0 else splits.getD (i - 1) 0)), ?_⟩
  simp only [resolveMetaInterval, hi]

/-- When every interval resolves, the resolution loop raises nothing and
produces one entry per selected segment. -/
theorem attachSegments_ok (splits : List Nat) (docIds : List String)
    (segs : List ((Nat × Nat) × ℚ)) :
    ∀ acc : List SegmentRef,
      (∀ p ∈ segs, ∃ r, resolveMetaInterval splits docIds p.1.1 p.1.2 = some r) →
      ∃ out, attachSegments splits docIds segs acc = Except.ok out ∧
        out.length = acc.length + segs.length := by
  induction segs with
  | nil =>
    intro acc _
    exact ⟨acc, rfl, by simp [attachSegments]⟩
  | cons p rest ih =>
    intro acc hres
    obtain ⟨se, score⟩ := p
    obtain ⟨r, hr⟩ := hres (se, score) (List.mem_cons_self _ _)
    obtain ⟨docId, cs, ce⟩ := r
    have hr' : resolveMetaInterval splits docIds se.1 se.2 = some (docId, cs, ce) := hr
    obtain ⟨out, hout, hlen⟩ := ih
      (acc ++ [{ doc_id := docId, chunk_start := cs, chunk_end := ce, score := score }])
      (fun q hq => hres q (List.mem_cons_of_mem _ hq))
    refine ⟨out, ?_, ?_⟩
    · simp only [attachSegments, hr']
      exact hout
    · simp only [List.length_append, List.length_singleton] at hlen
      simp only [List.length_cons]
      omega

/-- For every allowed `return_mode`, `_get_segment_content_from_database`
returns normally: the leading assertion is unreachable. -/
theorem getSegmentContent_isOk (kb : KBState) (docId : String) (cs ce : Nat)
    (mode : String)
    (h : mode = "text" ∨ mode = "page_images" ∨ mode = "dynamic") :
    ∃ c, getSegmentContentFromDatabase kb docId cs ce mode = Except.ok c := by
  rcases h with rfl | rfl | rfl
  · exact ⟨_, getSegmentContent_text kb docId cs ce⟩
  · rw [getSegmentContent_pageImages]
    by_cases hf : kb.fileSystem.getFiles docId (segmentPageNumbers kb docId cs ce).1
        (segmentPageNumbers kb docId cs ce).2 = []
    · rw [if_pos hf]
      exact ⟨_, rfl⟩
    · rw [if_neg hf]
      exact ⟨_, rfl⟩
  · rw [getSegmentContent_dynamic]
    cases hv : segmentIsVisual kb docId cs ce
    · exact ⟨_, getSegmentContent_text kb docId cs ce⟩
    · by_cases hf : kb.fileSystem.getFiles docId (segmentPageNumbers kb docId cs ce).1
          (segmentPageNumbers kb docId cs ce).2 = []
      · exact ⟨_, by rw [show (if (true = true) then
          getSegmentContentFromDatabase kb docId cs ce "page_images"
          else getSegmentContentFromDatabase kb docId cs ce "text") =
          getSegmentContentFromDatabase kb docId cs ce "page_images" from rfl,
          getSegmentContent_pageImages, if_pos hf]⟩
      · exact ⟨_, by rw [show (if (true = true) then
          getSegmentContentFromDatabase kb docId cs ce "page_images"
          else getSegmentContentFromDatabase kb docId cs ce "text") =
          getSegmentContentFromDatabase kb docId cs ce "page_images" from rfl,
          getSegmentContent_pageImages, if_neg hf]⟩

/-- C10: for every call to `query` with a `return_mode` outside
`{"text", "page_images", "dynamic"}`: if segment selection yields no segments
the call returns an empty list without validating `return_mode`; if it yields
at least one segment the call fails with the assertion error of
`_get_segment_content_from_database` (line 782) before any segment content is
returned; and that assertion is unreachable whenever `return_mode` is one of
the three allowed values.  The hypothesis `hV` records the length guarantee
of `get_relevance_values`: the relevance vector does not extend past the
meta-document (`meta_document_length = document_splits[-1]`, line 992). -/
theorem query_return_mode_assertion (kb : KBState) (arr : List (List RankedResult))
    (V : List ℚ) (rseArg : RseParamsArg) (mode : String) (d : RseParamsDict)
    (hr : resolveRseParams rseArg = Except.ok d)
    (hV : V.length ≤ ((getMetaDocument kb.chunkDB arr
      (fillDefaults d).top_k_for_document_selection).1).getLastD 0) :
    (querySelectedSegments kb arr V (fillDefaults d) = [] →
      query kb arr V rseArg mode = Except.ok []) ∧
    (mode ≠ "text" → mode ≠ "page_images" → mode ≠ "dynamic" →
      querySelectedSegments kb arr V (fillDefaults d) ≠ [] →
      query kb arr V rseArg mode = Except.error DSError.assertionError) ∧
    ((mode = "text" ∨ mode = "page_images" ∨ mode = "dynamic") →
      ∀ docId cs ce, ∃ c,
        getSegmentContentFromDatabase kb docId cs ce mode = Except.ok c) := by
  have hq : query kb arr V rseArg mode = queryWithParams kb arr V (fillDefaults d) mode := by
    simp [query, hr]
  refine ⟨?_, ?_, fun h docId cs ce => getSegmentContent_isOk kb docId cs ce mode h⟩
  · intro hsel
    unfold querySelectedSegments at hsel
    rw [hq]
    simp only [queryWithParams]
    by_cases hmeta : (getMetaDocument kb.chunkDB arr
        (fillDefaults d).top_k_for_document_selection).1 = []
    · rw [if_pos hmeta]
    · rw [if_neg hmeta]
      rw [hsel]
      simp [attachSegments, materializeSegments]
  · intro hm1 hm2 hm3 hsel
    unfold querySelectedSegments at hsel
    rw [hq]
    simp only [queryWithParams]
    set p := fillDefaults d with hpdef
    set meta := getMetaDocument kb.chunkDB arr p.top_k_for_document_selection with hmetadef
    set best := getBestSegments V meta.1 p.max_length (overallBudget p arr.length)
      p.minimum_value with hbestdef
    have hWF : ∀ x ∈ best.1, x.1 < x.2 ∧ x.2 ≤ V.length := by
      intro x hx
      rw [hbestdef] at hx
      exact getBestSegments_bounds V meta.1 p.max_length (overallBudget p arr.length)
        p.minimum_value x hx
    obtain ⟨x0, hx0⟩ := List.exists_mem_of_ne_nil _ hsel
    have hVpos : 0 < V.length := by
      have hb := hWF x0 hx0
      omega
    have hlastpos : 0 < meta.1.getLastD 0 := lt_of_lt_of_le hVpos hV
    have hmeta : meta.1 ≠ [] := by
      intro hnil
      rw [hnil] at hlastpos
      simp [List.getLastD] at hlastpos
    rw [if_neg hmeta]
    have hlastmem := getLastD_mem meta.1 0 hmeta
    have hres : ∀ q ∈ best.1.zip best.2,
        ∃ r, resolveMetaInterval meta.1 meta.2.2 q.1.1 q.1.2 = some r := by
      intro q hq2
      have hmemsel : q.1 ∈ best.1 := (List.of_mem_zip hq2).1
      have hb := hWF q.1 hmemsel
      refine resolveMetaInterval_isSome meta.1 meta.2.2 q.1.1 q.1.2
        ⟨meta.1.getLastD 0, hlastmem, ?_⟩
      omega
    obtain ⟨out, hout, hlen⟩ := attachSegments_ok meta.1 meta.2.2 (best.1.zip best.2) [] hres
    have houtne : out ≠ [] := by
      intro hnil
      rw [hnil] at hlen
      rw [List.length_zip] at hlen
      rw [hbestdef, getBestSegments_snd, ← hbestdef] at hlen
      rw [List.length_map, min_self] at hlen
      have hlz : best.1.length = 0 := by simpa using hlen.symm
      exact hsel (List.length_eq_zero.mp hlz)
    obtain ⟨o, os, rfl⟩ := List.exists_cons_of_ne_nil houtne
    rw [hout]
    show materializeSegments kb mode (o :: os) = Except.error DSError.assertionError
    have hcond : ¬(mode = "text" ∨ mode = "page_images" ∨ mode = "dynamic") := by
      rintro (hc | hc | hc)
      exacts [hm1 hc, hm2 hc, hm3 hc]
    have hcontent : getSegmentContentFromDatabase kb o.doc_id o.chunk_start o.chunk_end mode =
        Except.error DSError.assertionError := by
      unfold getSegmentContentFromDatabase
      rw [if_neg hcond]
    simp only [materializeSegments, hcontent]

/-- Evaluation of segment selection on the witness fixture: the single
best segment is the whole of `doc1`. -/
theorem wSelected_eq :
    querySelectedSegments wKB wArr wV (fillDefaults balancedPresetDict) = [(0, 2)] := by
  norm_num [querySelectedSegments, getBestSegments, candidateList, candidateListAux,
    candidatesFrom, crossesSplit, greedyPick, eligibleCands, remainingCands, pickBest,
    segScore, chunkRange, overlapsSeg, getMetaDocument, topKHitDocIds, dedupFirst,
    cumulativeSplits, startPointsList, wKB, wChunkDB, wArr, wV, fillDefaults,
    balancedPresetDict, overallBudget, List.range', List.filter, List.foldl]

/-- Witness for C10 at a concrete input: the preset resolves, the relevance
vector fits the meta-document, segment selection does pick a segment, and the
instantiated conclusion holds for the invalid mode string `"images"`. -/
theorem query_return_mode_assertion_witness :
    resolveRseParams (RseParamsArg.str "balanced") = Except.ok balancedPresetDict ∧
    wV.length ≤ ((getMetaDocument wKB.chunkDB wArr
      (fillDefaults balancedPresetDict).top_k_for_document_selection).1).getLastD 0 ∧
    querySelectedSegments wKB wArr wV (fillDefaults balancedPresetDict) ≠ [] ∧
    ((querySelectedSegments wKB wArr wV (fillDefaults balancedPresetDict) = [] →
      query wKB wArr wV (RseParamsArg.str "balanced") "images" = Except.ok []) ∧
    (("images" : String) ≠ "text" → ("images" : String) ≠ "page_images" →
      ("images" : String) ≠ "dynamic" →
      querySelectedSegments wKB wArr wV (fillDefaults balancedPresetDict) ≠ [] →
      query wKB wArr wV (RseParamsArg.str "balanced") "images" =
        Except.error DSError.assertionError) ∧
    ((("images" : String) = "text" ∨ ("images" : String) = "page_images" ∨
      ("images" : String) = "dynamic") →
      ∀ docId cs ce, ∃ c,
        getSegmentContentFromDatabase wKB docId cs ce "images" = Except.ok c)) :=
  ⟨rfl, by decide, by rw [wSelected_eq]; decide,
    query_return_mode_assertion wKB wArr wV (RseParamsArg.str "balanced") "images"
      balancedPresetDict rfl (by decide)⟩
